import Mathlib

/-!
# Verification of the `x0y14/browser` HTML front end

Shallow embedding of the repository's HTML tokenizer and parser
(`src/html/tokenizer.rs`, `src/html/parser.rs`, `src/html/errors.rs`)
together with proofs settling the frozen claims about them.

Modeling conventions:
* Rust `u32` position counters are modeled as `Nat` (no input in any claim
  comes close to `2^32` characters, so wraparound never matters).
* A Rust `panic!`/`unwrap()`-on-`None` is modeled as an explicit `panic`
  outcome that propagates.
* The source's `while` loops and the mutual recursion between `parse_`
  and `parse_tag` do not terminate on all inputs (one of the claims is
  about exactly this), so the parser and the tokenizer main loop take an
  explicit fuel argument; `diverge` means the fuel bound was reached,
  i.e. the source loop has not finished within that many iterations.
* Rust `char::to_lowercase`/`str::to_lowercase` is modeled by mapping
  Lean's ASCII `Char.toLower` over the characters.  The two agree on all
  ASCII text, which covers every string appearing in the claims; Lean's
  own `String.toLower` is the same map but does not reduce inside the
  kernel, hence the explicit definition.
-/

namespace Html

/-- Rust's `to_lowercase()` on the ASCII fragment (see the module comment). -/
def to_lowercase (s : String) : String := ⟨s.data.map Char.toLower⟩

namespace Parser

/-- Token kinds as consumed by `parser.rs`.  `parser.rs` matches on the
constructors `Eof`, `Whitespace`, `TagBegin`, `TagEnd`, `Excl`, `Assign`,
`Hyphen`, `Slash`, `Text`, `String`; the tokenizer file present in `src/`
is the dead numeric-literal variant that does not define them (it is
embedded separately in the `Tokenizer` namespace below).  Per spec §3 the
lexical alphabet has one kind per reserved symbol `< > ! = - / &` (`Amp`
is the seventh; the parser never inspects it), a whitespace-run kind, a
quoted-string kind, a generic text kind and an end-of-input kind. -/
inductive TokenKind where
  | Eof
  | Whitespace
  | TagBegin
  | TagEnd
  | Excl
  | Assign
  | Hyphen
  | Slash
  | Amp
  | Text
  | String
  deriving DecidableEq, Repr

/-- Parser-side token: a kind plus its text payload `s`.  The source
`Token` also carries a `Position` and an owning `next` pointer; the
parser never branches on positions, and the forward-only `next` chain is
modeled by the surrounding `List`. -/
structure Token where
  kind : TokenKind
  s : String
  deriving DecidableEq, Repr

/-- `NodeKind` from parser.rs. -/
inductive NodeKind where
  | Tag
  | SoloTag
  | CommentTag
  | DoctypeTag
  | Text
  | Parameters
  | Parameter
  | Identifier
  | String
  deriving DecidableEq, Repr

/-- `Node` struct from parser.rs: one record with a kind tag and optional
branch fields (`params`, `lhs`, `rhs`, `children`) plus a string payload. -/
inductive Node where
  | mk (kind : NodeKind) (s : String) (params : Option Node) (lhs : Option Node)
      (rhs : Option Node) (children : Option (List (Option Node))) : Node

/-- `Node::new(kind, params, lhs, rhs, children, s)` — source argument order.
Note that parser.rs passes the attribute-name node as the `params` argument
and the attribute-value node as the `lhs` argument when building a
`Parameter` node; this quirk is preserved. -/
def Node.new (kind : NodeKind) (params lhs rhs : Option Node)
    (children : Option (List (Option Node))) (s : String) : Node :=
  .mk kind s params lhs rhs children

def Node.kind : Node → NodeKind
  | .mk k _ _ _ _ _ => k

def Node.s : Node → String
  | .mk _ s _ _ _ _ => s

def Node.params : Node → Option Node
  | .mk _ _ p _ _ _ => p

def Node.lhs : Node → Option Node
  | .mk _ _ _ l _ _ => l

def Node.rhs : Node → Option Node
  | .mk _ _ _ _ r _ => r

def Node.children : Node → Option (List (Option Node))
  | .mk _ _ _ _ _ c => c

/-- `ParseError` from errors.rs.  `TagMissMatch` fields are the open and
close tag names (named `openName`/`closeName`; `open` is a Lean keyword). -/
inductive ParseError where
  | TagMissMatch (openName closeName : String)
  | UnexpectedToken (expected : TokenKind) (found : Token)
  | UnexpectedText (expected : String) (found : Option Token)
  | Unknown
  deriving DecidableEq, Repr

/-- Outcome of a fueled parser computation: a value together with the
remaining token cursor, a structured error, a `panic` (an `unwrap` of a
`None` cursor in the source), or `diverge` (fuel exhausted: the source's
loop has not finished within the given number of iterations). -/
inductive PResult (α : Type) where
  | ok : α → List Token → PResult α
  | err : ParseError → PResult α
  | panic : PResult α
  | diverge : PResult α

/-- Sequencing that propagates `err`/`panic`/`diverge` (Rust `?`-style
`match`-and-return on the error arm). -/
def PResult.andThen {α β : Type} : PResult α → (α → List Token → PResult β) → PResult β
  | .ok a ts, f => f a ts
  | .err e, _ => .err e
  | .panic, _ => .panic
  | .diverge, _ => .diverge

/-- Result of `Parser::consume_kind`: `panicked` when the cursor is `None`
(`current_token` unwraps), `no` when the head has the wrong kind (cursor
unchanged), `yes` with the consumed token and the rest. -/
inductive Consumed where
  | panicked
  | no
  | yes (t : Token) (rest : List Token)

/-- `Parser::consume_kind`. -/
def consume_kind (kind : TokenKind) : List Token → Consumed
  | [] => .panicked
  | t :: ts => if t.kind = kind then .yes t ts else .no

/-- `Parser::expect_kind`: consume a token of the given kind or fail with
`UnexpectedToken`.  (The source wraps the token in `Ok(Some(_))`; the
`Option` layer is always `Some`, so it is dropped here.) -/
def expect_kind (kind : TokenKind) : List Token → PResult Token
  | [] => .panic
  | t :: ts => if t.kind = kind then .ok t ts else .err (.UnexpectedToken kind t)

/-- `Parser::expect_text`: expect a `Text` token whose payload matches
`text`, case-sensitively or after lower-casing. -/
def expect_text (text : String) (case_sensitive : Bool) (ts : List Token) :
    PResult Unit :=
  (expect_kind .Text ts).andThen fun tok rest =>
    if case_sensitive ∧ tok.s = text then .ok () rest
    else if ¬case_sensitive ∧ to_lowercase tok.s = text then .ok () rest
    else .err (.UnexpectedText text (some tok))

/-- A bare `self.consume_kind(TokenKind::Whitespace)` used only for its
side effect: drop one whitespace token if the head is one.  `none` models
the panic of `current_token` on an empty cursor. -/
def skip_ws : List Token → Option (List Token)
  | [] => none
  | t :: ts => if t.kind = .Whitespace then some ts else some (t :: ts)

/-- The `while` loop of `Parser::parse_text`: concatenate the payloads of
consecutive `Text` tokens; stop at `Eof` or at the first non-`Text` token
(which is not consumed). -/
def textLoop : Nat → String → List Token → PResult String
  | 0, _, _ => .diverge
  | _+1, _, [] => .panic
  | n+1, acc, t :: ts =>
    if t.kind = .Eof then .ok acc (t :: ts)
    else if t.kind = .Text then textLoop n (acc ++ t.s) ts
    else .ok acc (t :: ts)

/-- `Parser::parse_text`: always returns a `Text` node (possibly with an
empty payload — nothing is consumed when the head token is not `Text`). -/
def parse_text (n : Nat) (ts : List Token) : PResult (Option Node) :=
  match textLoop n "" ts with
  | .ok text rest => .ok (some (Node.new .Text none none none none text)) rest
  | .err e => .err e
  | .panic => .panic
  | .diverge => .diverge

/-- The doctype tail of `Parser::parse_decl_tag` (lines 166–196): expect
the literal `doctype` case-insensitively, one whitespace, the type text
(stored lower-cased), and `>`. -/
def parse_doctype (ts : List Token) : PResult (Option Node) :=
  (expect_text "doctype" false ts).andThen fun _ ts1 =>
  (expect_kind .Whitespace ts1).andThen fun _ ts2 =>
  (expect_kind .Text ts2).andThen fun tok ts3 =>
  (expect_kind .TagEnd ts3).andThen fun _ ts4 =>
  .ok (some (Node.new .DoctypeTag none none none none (to_lowercase tok.s))) ts4

/-- The comment `while` loop of `Parser::parse_decl_tag` (lines 132–161):
`--` followed by `>` closes the comment; a lone `-` is re-appended as
`"-"`, a `--` not followed by `>` as `"--"`; a whitespace token becomes a
single `" "`; any other token contributes its payload.  If the loop runs
off to `Eof`, control falls through to the doctype code of the same
source function. -/
def commentLoop : Nat → String → List Token → PResult (Option Node)
  | 0, _, _ => .diverge
  | _+1, _, [] => .panic
  | n+1, c, t :: ts =>
    if t.kind = .Eof then parse_doctype (t :: ts)
    else if t.kind = .Hyphen then
      match ts with
      | [] => .panic
      | t2 :: ts2 =>
        if t2.kind = .Hyphen then
          match ts2 with
          | [] => .panic
          | t3 :: ts3 =>
            if t3.kind = .TagEnd then
              .ok (some (Node.new .CommentTag none none none none c)) ts3
            else commentLoop n (c ++ "--") (t3 :: ts3)
        else commentLoop n (c ++ "-") (t2 :: ts2)
    else if t.kind = .Whitespace then commentLoop n (c ++ " ") ts
    else commentLoop n (c ++ t.s) ts

/-- `Parser::parse_decl_tag`: a `-` (with a mandatory second `-`) starts a
comment, otherwise the doctype form is parsed. -/
def parse_decl_tag (n : Nat) (ts : List Token) : PResult (Option Node) :=
  match consume_kind .Hyphen ts with
  | .panicked => .panic
  | .yes _ ts1 =>
    (expect_kind .Hyphen ts1).andThen fun _ ts2 => commentLoop n "" ts2
  | .no => parse_doctype ts

/-- The `while` loop of `Parser::parse_tag_parameters`: skip one optional
whitespace, stop before `>` or `/`, skip one more optional whitespace,
then require `Text` `=` `String` and push a `Parameter` node (name as
written in `params`, value in `lhs` — source field quirk), then skip one
optional whitespace. -/
def paramsLoop : Nat → List (Option Node) → List Token → PResult (List (Option Node))
  | 0, _, _ => .diverge
  | _+1, _, [] => .panic
  | n+1, acc, t :: ts =>
    if t.kind = .Eof then .ok acc (t :: ts)
    else
      match skip_ws (t :: ts) with
      | none => .panic
      | some ts1 =>
        match ts1 with
        | [] => .panic
        | u :: us =>
          if u.kind = .TagEnd ∨ u.kind = .Slash then .ok acc (u :: us)
          else
            match skip_ws (u :: us) with
            | none => .panic
            | some ts2 =>
              match ts2 with
              | [] => .panic
              | v :: vs =>
                if v.kind = .Text then
                  (expect_kind .Assign vs).andThen fun _ ts4 =>
                  (expect_kind .String ts4).andThen fun value ts5 =>
                  let lhs := Node.new .Identifier none none none none v.s
                  let rhs := Node.new .String none none none none value.s
                  let param := Node.new .Parameter (some lhs) (some rhs) none none ""
                  match skip_ws ts5 with
                  | none => .panic
                  | some ts6 => paramsLoop n (acc ++ [some param]) ts6
                else .err (.UnexpectedToken .Text v)

/-- `Parser::parse_tag_parameters`: zero collected attributes yield
`Ok(None)`; otherwise a `Parameters` node holding the collected list. -/
def parse_tag_parameters (n : Nat) (ts : List Token) : PResult (Option Node) :=
  match paramsLoop n [] ts with
  | .ok children rest =>
    if children.length = 0 then .ok none rest
    else .ok (some (Node.new .Parameters none none none (some children) "")) rest
  | .err e => .err e
  | .panic => .panic
  | .diverge => .diverge

mutual

/-- `Parser::parse_tag` (the `<` has already been consumed by the caller):
`!` dispatches to `parse_decl_tag`; a `/` returns `Ok(None)` (close-tag
sentinel, token not consumed); otherwise the lower-cased tag name is read,
attributes are parsed, and either a self-closing `/>` yields a `SoloTag`
or children are parsed recursively up to `/ name >`, failing with
`TagMissMatch` when the lower-cased open and close names differ. -/
def parse_tag : Nat → List Token → PResult (Option Node)
  | 0, _ => .diverge
  | n+1, ts =>
    match consume_kind .Excl ts with
    | .panicked => .panic
    | .yes _ ts1 => parse_decl_tag n ts1
    | .no =>
      match ts with
      | [] => .panic
      | t :: ts' =>
        if t.kind = .Slash then .ok none (t :: ts')
        else
          (expect_kind .Text (t :: ts')).andThen fun nameTok ts1 =>
          match skip_ws ts1 with
          | none => .panic
          | some ts2 =>
            (parse_tag_parameters n ts2).andThen fun params ts3 =>
            match skip_ws ts3 with
            | none => .panic
            | some ts4 =>
              match consume_kind .Slash ts4 with
              | .panicked => .panic
              | .yes _ ts5 =>
                (expect_kind .TagEnd ts5).andThen fun _ ts6 =>
                .ok (some (Node.new .SoloTag params none none none
                  (to_lowercase nameTok.s))) ts6
              | .no =>
                (expect_kind .TagEnd ts4).andThen fun _ ts5 =>
                (parseLoop n [] ts5).andThen fun children ts6 =>
                (expect_kind .Slash ts6).andThen fun _ ts7 =>
                (expect_kind .Text ts7).andThen fun closeTok ts8 =>
                (expect_kind .TagEnd ts8).andThen fun _ ts9 =>
                if to_lowercase nameTok.s ≠ to_lowercase closeTok.s then
                  .err (.TagMissMatch (to_lowercase nameTok.s)
                    (to_lowercase closeTok.s))
                else
                  .ok (some (Node.new .Tag params none none children
                    (to_lowercase nameTok.s))) ts9

/-- The `while` loop of `Parser::parse_` with its accumulated `nodes`:
each iteration skips one optional whitespace, then a `<` dispatches to
`parse_tag` and anything else to `parse_text`; an `Ok(None)` from
`parse_tag` breaks the loop; after pushing a node one optional whitespace
is skipped.  On exit an empty accumulator yields `Ok(None)`. -/
def parseLoop : Nat → List (Option Node) → List Token → PResult (Option (List (Option Node)))
  | 0, _, _ => .diverge
  | _+1, _, [] => .panic
  | n+1, nodes, t :: ts =>
    if t.kind = .Eof then
      if nodes.length = 0 then .ok none (t :: ts) else .ok (some nodes) (t :: ts)
    else
      match skip_ws (t :: ts) with
      | none => .panic
      | some ts1 =>
        match
          ((match consume_kind .TagBegin ts1 with
            | .panicked => .panic
            | .yes _ ts2 => parse_tag n ts2
            | .no => parse_text n ts1) : PResult (Option Node)) with
        | .err e => .err e
        | .panic => .panic
        | .diverge => .diverge
        | .ok none rest =>
          if nodes.length = 0 then .ok none rest else .ok (some nodes) rest
        | .ok (some nd) rest =>
          match skip_ws rest with
          | none => .panic
          | some rest1 => parseLoop n (nodes ++ [some nd]) rest1

end

/-- `Parser::parse_`. -/
def parse_ (n : Nat) (ts : List Token) : PResult (Option (List (Option Node))) :=
  parseLoop n [] ts

/-- Shape of every entry the attribute loop collects: a `Parameter` node
holding the `Identifier` name in its `params` field and the `String` value
in its `lhs` field (source argument-order quirk, see `Node.new`). -/
def isParamEntry (x : Option Node) : Prop :=
  ∃ nm v, x = some (Node.new .Parameter
    (some (Node.new .Identifier none none none none nm))
    (some (Node.new .String none none none none v)) none none "")

/-- `Parser::parse`: unwraps its `Option<Box<Token>>` argument (we pass
the token list directly) and runs `parse_`. -/
def parse (n : Nat) (ts : List Token) : PResult (Option (List (Option Node))) :=
  parse_ n ts

end Parser

namespace Tokenizer

/-- `Position` (src/html/position.rs is not present in `src/`; the three
fields and their uses — `line_no`, `at_line`, `at_whole` — are exactly the
ones tokenizer.rs reads and writes, and `Position::new(1, 0, 0)` starts at
line 1, column 0, offset 0).  Rust `u32` counters are modeled as `Nat`. -/
structure Position where
  line_no : Nat
  at_line : Nat
  at_whole : Nat
  deriving DecidableEq, Repr

/-- `Tokenizer::move_horizon`. -/
def move_horizon (p : Position) (n : Nat) : Position :=
  { p with at_line := p.at_line + n, at_whole := p.at_whole + n }

/-- `Tokenizer::next_line`. -/
def next_line (p : Position) : Position :=
  { line_no := p.line_no + 1, at_line := 0, at_whole := p.at_whole + 1 }

/-- Rust `String::len()`: the number of UTF-8 *bytes* of the target.  The
tokenizer's `is_eof` compares the character index `at_whole` against this
byte count, while `current_char`/`peek` index by *character*
(`chars().nth`) — the mismatch behind the unchecked-read claim. -/
def byteLen (cs : List Char) : Nat := (cs.map Char.utf8Size).sum

/-- `Tokenizer::is_eof`: `pos.at_whole >= target.len()`. -/
def is_eof (target : List Char) (p : Position) : Bool :=
  byteLen target ≤ p.at_whole

/-- `Tokenizer::current_char`: `target.chars().nth(at_whole).unwrap()` —
`none` is the `unwrap` panic on an out-of-range read. -/
def current_char (target : List Char) (p : Position) : Option Char :=
  target.get? p.at_whole

/-- `Tokenizer::peek(n)`: `target.chars().nth(at_whole + n).unwrap()` —
like `current_char`, unchecked. -/
def peek (target : List Char) (p : Position) (n : Nat) : Option Char :=
  target.get? (p.at_whole + n)

/-- `is_alphanum_` from tokenizer.rs: `c.is_alphanumeric() || c == '_'`.
Rust's `is_alphanumeric` is Unicode-aware; this model is its ASCII
fragment (every character classified by a claim is ASCII, and the single
non-ASCII character used below, `'©'`, is non-alphanumeric in both). -/
def is_alphanum_ (c : Char) : Bool := c.isAlphanum || c = '_'

/-- `is_number` from tokenizer.rs: one of the ten ASCII digits. -/
def is_number (c : Char) : Bool :=
  c = '0' ∨ c = '1' ∨ c = '2' ∨ c = '3' ∨ c = '4' ∨
  c = '5' ∨ c = '6' ∨ c = '7' ∨ c = '8' ∨ c = '9'

/-- `is_ws` from tokenizer.rs. -/
def is_ws (c : Char) : Bool := c = '\n' ∨ c = '\t' ∨ c = ' '

/-- `is_reserved_symbol` from tokenizer.rs: the seven reserved symbols. -/
def is_reserved_symbol (c : Char) : Bool :=
  c = '<' ∨ c = '>' ∨ c = '!' ∨ c = '=' ∨ c = '-' ∨ c = '/' ∨ c = '&'

/-- `TokenKind` from tokenizer.rs (the numeric-literal tokenizer variant
actually present in `src/`).  The source stores `Integer(i64)` and
`Decimal(f64)` obtained by `s.parse::<f64>().unwrap()`; neither payload is
ever read again (the parser never references these kinds), so both keep
the consumed digit/dot string here instead of the parsed number. -/
inductive TokenKind where
  | Illegal
  | Eof
  | Whitespace
  | ReservedSymbol (s : String)
  | Text (s : String)
  | String (s : String)
  | Integer (s : String)
  | Decimal (s : String)
  deriving DecidableEq, Repr

/-- `Token` from tokenizer.rs: kind and position (the `next` chain is
modeled by the surrounding `List`). -/
structure Token where
  kind : TokenKind
  pos : Position
  deriving DecidableEq, Repr

/-- The loop of `Tokenizer::consume_string` (start quote consumed):
scan to the matching quote or to end of input; each read of
`current_char` is guarded by the byte-based `is_eof` and can therefore
still run off the end of the character sequence (`none` = panic). -/
def consume_stringAux (target : List Char) (is_single : Bool) (p : Position)
    (s : String) : Option (String × Position) :=
  if _h : byteLen target ≤ p.at_whole then some (s, p)
  else
    match target.get? p.at_whole with
    | none => none
    | some cur =>
      if cur = '\'' ∧ is_single then some (s, p)
      else if cur = '"' ∧ ¬is_single then some (s, p)
      else consume_stringAux target is_single (move_horizon p 1) (s.push cur)
termination_by byteLen target - p.at_whole
decreasing_by simp [move_horizon]; omega

/-- `Tokenizer::consume_string`: consume the start quote, scan, consume
the end quote (the final advance happens even at end of input — the
silently-accepted unterminated literal). -/
def consume_string (target : List Char) (is_single : Bool) (p : Position) :
    Option (String × Position) :=
  match consume_stringAux target is_single (move_horizon p 1) "" with
  | none => none
  | some (s, p1) => some (s, move_horizon p1 1)

/-- The loop of `Tokenizer::consume_numeric`: collect digits and dots. -/
def consume_numericAux (target : List Char) (p : Position) (s : String)
    (include_dot : Bool) : Option (String × Bool × Position) :=
  if _h : byteLen target ≤ p.at_whole then some (s, include_dot, p)
  else
    match target.get? p.at_whole with
    | none => none
    | some cur =>
      if is_number cur then
        consume_numericAux target (move_horizon p 1) (s.push cur) include_dot
      else if cur = '.' then
        consume_numericAux target (move_horizon p 1) (s.push cur) true
      else some (s, include_dot, p)
termination_by byteLen target - p.at_whole
decreasing_by all_goals simp [move_horizon]; omega

/-- `Tokenizer::consume_numeric`: the collected string is fed to
`s.parse::<f64>().unwrap()`, which panics (`none`) exactly when the
digit/dot string contains two or more dots (`Digit+ ('.' Digit*)?` is the
fragment of Rust's float grammar reachable here). -/
def consume_numeric (target : List Char) (p : Position) :
    Option (String × Bool × Position) :=
  match consume_numericAux target p "" false with
  | none => none
  | some (s, d, p1) =>
    if 2 ≤ s.data.count '.' then none else some (s, d, p1)

/-- The loop of `Tokenizer::consume_ws`: space/tab advance the column,
newline advances the line. -/
def consume_wsAux (target : List Char) (p : Position) (s : String) :
    Option (String × Position) :=
  if _h : byteLen target ≤ p.at_whole then some (s, p)
  else
    match target.get? p.at_whole with
    | none => none
    | some cur =>
      if is_ws cur ∧ ¬cur = '\n' then
        consume_wsAux target (move_horizon p 1) (s.push cur)
      else if cur = '\n' then
        consume_wsAux target (next_line p) (s.push cur)
      else some (s, p)
termination_by byteLen target - p.at_whole
decreasing_by all_goals simp [move_horizon, next_line]; omega

/-- `Tokenizer::consume_ws`. -/
def consume_ws (target : List Char) (p : Position) : Option (String × Position) :=
  consume_wsAux target p ""

/-- `Tokenizer::consume_symbol`: the current character alone. -/
def consume_symbol (target : List Char) (p : Position) :
    Option (String × Position) :=
  match target.get? p.at_whole with
  | none => none
  | some c => some (String.singleton c, move_horizon p 1)

/-- The loop of `Tokenizer::consume_text` (entered only when the current
character is alphanumeric/underscore): a maximal run of such characters,
with each read guarded by the byte-based `is_eof`. -/
def consume_textAux (target : List Char) (p : Position) (s : String) :
    Option (String × Position) :=
  if _h : byteLen target ≤ p.at_whole then some (s, p)
  else
    match target.get? p.at_whole with
    | none => none
    | some cur =>
      if is_alphanum_ cur then
        consume_textAux target (move_horizon p 1) (s.push cur)
      else some (s, p)
termination_by byteLen target - p.at_whole
decreasing_by simp [move_horizon]; omega

/-- `Tokenizer::consume_text`: a non-alphanumeric character is emitted
alone; otherwise the maximal alphanumeric/underscore run. -/
def consume_text (target : List Char) (p : Position) :
    Option (String × Position) :=
  match target.get? p.at_whole with
  | none => none
  | some c =>
    if ¬is_alphanum_ c then some (String.singleton c, move_horizon p 1)
    else consume_textAux target p ""

/-- Outcome of `Tokenizer::tokenize`: the token list (the source links
tokens through `next` and returns `head.next`), a panic, or fuel
exhaustion of the main scanning loop. -/
inductive TRes where
  | ok (tokens : List Token)
  | panicked
  | fuelOut
  deriving DecidableEq, Repr

/-- The main loop of `Tokenizer::tokenize`, classifying in source order:
whitespace run, reserved symbol, quoted string (`'` then `"`), numeric
literal, text.  Every token is linked with the position *after* its
characters were consumed (`self.pos.clone()` at the `link_*` call). -/
def tokenizeLoop : Nat → List Char → Position → List Token → TRes
  | 0, _, _, _ => .fuelOut
  | n+1, target, p, acc =>
    if byteLen target ≤ p.at_whole then .ok (acc ++ [⟨.Eof, p⟩])
    else
      match target.get? p.at_whole with
      | none => .panicked
      | some c =>
        if is_ws c then
          match consume_ws target p with
          | none => .panicked
          | some (_ws, p1) => tokenizeLoop n target p1 (acc ++ [⟨.Whitespace, p1⟩])
        else if is_reserved_symbol c then
          match consume_symbol target p with
          | none => .panicked
          | some (sym, p1) =>
            tokenizeLoop n target p1 (acc ++ [⟨.ReservedSymbol sym, p1⟩])
        else if c = '\'' then
          match consume_string target true p with
          | none => .panicked
          | some (s, p1) => tokenizeLoop n target p1 (acc ++ [⟨.String s, p1⟩])
        else if c = '"' then
          match consume_string target false p with
          | none => .panicked
          | some (s, p1) => tokenizeLoop n target p1 (acc ++ [⟨.String s, p1⟩])
        else if is_number c then
          match consume_numeric target p with
          | none => .panicked
          | some (s, include_dot, p1) =>
            if include_dot then
              tokenizeLoop n target p1 (acc ++ [⟨.Decimal s, p1⟩])
            else tokenizeLoop n target p1 (acc ++ [⟨.Integer s, p1⟩])
        else
          match consume_text target p with
          | none => .panicked
          | some (t, p1) => tokenizeLoop n target p1 (acc ++ [⟨.Text t, p1⟩])

/-- `Tokenizer::tokenize` on a fresh `Tokenizer::new` (position 1/0/0). -/
def tokenize (n : Nat) (target : List Char) : TRes :=
  tokenizeLoop n target ⟨1, 0, 0⟩ []

/-- The kinds of the produced tokens, for statements that do not care
about positions. -/
def TRes.kinds : TRes → Option (List TokenKind)
  | .ok toks => some (toks.map Token.kind)
  | .panicked => none
  | .fuelOut => none

end Tokenizer

namespace Parser

/-- Helper for C2: at a stray `Hyphen` in node position, every iteration
of `parse_`'s loop appends an empty `Text` node without consuming a token,
so the loop never terminates, whatever the accumulated nodes are. -/
theorem parseLoop_stray_hyphen (hy e : String) :
    ∀ (n : Nat) (acc : List (Option Node)),
      parseLoop n acc [⟨.Hyphen, hy⟩, ⟨.Eof, e⟩] = .diverge := by
  intro n
  induction n with
  | zero => intro acc; rfl
  | succ m ih =>
    intro acc
    cases m with
    | zero => rfl
    | succ k =>
      exact ih (acc ++ [some (Node.new .Text none none none none "")])

/-- C1: for every parse of an input of the form `<a>...</b>` (the middle
being any token sequence whose child parse succeeds and stops at the
`/ b >` close sequence) where the open and close names differ after
case-folding, `parse` returns a `TagMissMatch` error carrying the folded
open and close names, and no forest. -/
theorem c1_tag_mismatch (n : Nat) (a b sb se ss sg : String)
    (ts rest : List Token) (cs : Option (List (Option Node)))
    (hne : to_lowercase a ≠ to_lowercase b)
    (hch : parseLoop n [] ts =
      .ok cs (⟨.Slash, ss⟩ :: ⟨.Text, b⟩ :: ⟨.TagEnd, sg⟩ :: rest)) :
    parse (n+1+1) (⟨.TagBegin, sb⟩ :: ⟨.Text, a⟩ :: ⟨.TagEnd, se⟩ :: ts) =
      .err (.TagMissMatch (to_lowercase a) (to_lowercase b)) := by
  obtain ⟨m, rfl⟩ : ∃ m, n = m + 1 := by
    cases n with
    | zero => simp [parseLoop] at hch
    | succ m => exact ⟨m, rfl⟩
  simp [parse, parse_, parseLoop, parse_tag, parse_tag_parameters, paramsLoop,
    expect_kind, consume_kind, skip_ws, PResult.andThen, hch, hne]

/-- Witness for C1 at the concrete input `<a></B>`. -/
theorem c1_tag_mismatch_witness :
    parse 4 [⟨.TagBegin, "<"⟩, ⟨.Text, "a"⟩, ⟨.TagEnd, ">"⟩,
        ⟨.TagBegin, "<"⟩, ⟨.Slash, "/"⟩, ⟨.Text, "B"⟩, ⟨.TagEnd, ">"⟩, ⟨.Eof, ""⟩] =
      .err (.TagMissMatch "a" "b") := by
  have h := c1_tag_mismatch 2 "a" "B" "<" ">" "/" ">"
    [⟨.TagBegin, "<"⟩, ⟨.Slash, "/"⟩, ⟨.Text, "B"⟩, ⟨.TagEnd, ">"⟩, ⟨.Eof, ""⟩]
    [⟨.Eof, ""⟩] none (by decide) (by rfl)
  simpa using h

/-- C2 (code bug): `parse` does NOT terminate on every finite token
sequence — on the tokens of the input `"-"` (a stray reserved-symbol
token other than `<` in node position, followed by end-of-input) the
parse diverges for every fuel bound: `parse_text` consumes nothing,
returns an empty `Text` node, and `parse_`'s loop repeats forever at the
same cursor. -/
theorem c2_stray_symbol_diverges (n : Nat) :
    parse n [⟨.Hyphen, "-"⟩, ⟨.Eof, ""⟩] = .diverge :=
  parseLoop_stray_hyphen "-" "" n []

/-- Counterexample for C3: parsing `<img SRC="x"/>` stores the attribute
name exactly as written, `"SRC"`, in the `Identifier` node (in the
`Parameter`'s `params` field), and `"SRC" ≠ "src"` — the name is not
lower-cased. -/
theorem c3_attr_name_counterexample :
    parse 10 [⟨.TagBegin, "<"⟩, ⟨.Text, "img"⟩, ⟨.Whitespace, " "⟩,
        ⟨.Text, "SRC"⟩, ⟨.Assign, "="⟩, ⟨.String, "x"⟩, ⟨.Slash, "/"⟩,
        ⟨.TagEnd, ">"⟩, ⟨.Eof, ""⟩] =
      .ok (some [some (Node.new .SoloTag
        (some (Node.new .Parameters none none none
          (some [some (Node.new .Parameter
            (some (Node.new .Identifier none none none none "SRC"))
            (some (Node.new .String none none none none "x")) none none "")]) ""))
        none none none "img")]) [⟨.Eof, ""⟩] ∧ "SRC" ≠ "src" :=
  ⟨rfl, by decide⟩

/-- C3 as amended: each collected attribute stores its name exactly as
written in the source token (no case-folding): one iteration of the
attribute loop on `name = "value"` pushes a `Parameter` whose
`Identifier` carries the name token's payload unchanged. -/
theorem c3_attr_name_stored_as_written (n : Nat) (acc : List (Option Node))
    (nm asgn v : String) (t : Token) (ts : List Token)
    (ht : ¬t.kind = .Whitespace) :
    paramsLoop (n+1) acc (⟨.Text, nm⟩ :: ⟨.Assign, asgn⟩ :: ⟨.String, v⟩ :: t :: ts) =
      paramsLoop n (acc ++ [some (Node.new .Parameter
        (some (Node.new .Identifier none none none none nm))
        (some (Node.new .String none none none none v)) none none "")]) (t :: ts) := by
  simp [paramsLoop, skip_ws, expect_kind, PResult.andThen, ht, Node.new]

/-- Witness for the amended C3 at `SRC="x"` followed by `>`. -/
theorem c3_attr_name_witness :
    paramsLoop (0+1) [] [⟨.Text, "SRC"⟩, ⟨.Assign, "="⟩, ⟨.String, "x"⟩,
        ⟨.TagEnd, ">"⟩, ⟨.Eof, ""⟩] =
      paramsLoop 0 [some (Node.new .Parameter
        (some (Node.new .Identifier none none none none "SRC"))
        (some (Node.new .String none none none none "x")) none none "")]
        [⟨.TagEnd, ">"⟩, ⟨.Eof, ""⟩] := by
  have h := c3_attr_name_stored_as_written 0 [] "SRC" "=" "x" ⟨.TagEnd, ">"⟩
    [⟨.Eof, ""⟩] (by decide)
  simpa using h

/-- Counterexample for C4: the tokens of `"a b"` parse to TWO sibling
text nodes `"a"` and `"b"` (whitespace discarded), not to the single
concatenated text node `"ab"` the claim asserts. -/
theorem c4_single_text_node_counterexample :
    parse 10 [⟨.Text, "a"⟩, ⟨.Whitespace, " "⟩, ⟨.Text, "b"⟩, ⟨.Eof, ""⟩] =
      .ok (some [some (Node.new .Text none none none none "a"),
                 some (Node.new .Text none none none none "b")]) [⟨.Eof, ""⟩] ∧
    (.ok (some [some (Node.new .Text none none none none "a"),
               some (Node.new .Text none none none none "b")]) [(⟨.Eof, ""⟩ : Token)] ≠
      (.ok (some [some (Node.new .Text none none none none "ab")]) [⟨.Eof, ""⟩] :
        PResult (Option (List (Option Node))))) := by
  constructor
  · rfl
  · simp [Node.new]

/-- C4 as amended: for any two text-run payloads separated by one
whitespace token, `parse` returns two sibling text nodes carrying the two
payloads; the whitespace is discarded and appears in no payload. -/
theorem c4_two_sibling_text_nodes (a w b : String) :
    parse 10 [⟨.Text, a⟩, ⟨.Whitespace, w⟩, ⟨.Text, b⟩, ⟨.Eof, ""⟩] =
      .ok (some [some (Node.new .Text none none none none a),
                 some (Node.new .Text none none none none b)]) [⟨.Eof, ""⟩] := rfl

/-- C7: tag-name matching is case-insensitive — `<HTML></html>` and
`<html></HTML>` both parse to a single `Tag` node storing the lower-cased
name `"html"`. -/
theorem c7_case_insensitive_tags :
    parse 10 [⟨.TagBegin, "<"⟩, ⟨.Text, "HTML"⟩, ⟨.TagEnd, ">"⟩,
        ⟨.TagBegin, "<"⟩, ⟨.Slash, "/"⟩, ⟨.Text, "html"⟩, ⟨.TagEnd, ">"⟩, ⟨.Eof, ""⟩] =
      .ok (some [some (Node.new .Tag none none none none "html")]) [⟨.Eof, ""⟩] ∧
    parse 10 [⟨.TagBegin, "<"⟩, ⟨.Text, "html"⟩, ⟨.TagEnd, ">"⟩,
        ⟨.TagBegin, "<"⟩, ⟨.Slash, "/"⟩, ⟨.Text, "HTML"⟩, ⟨.TagEnd, ">"⟩, ⟨.Eof, ""⟩] =
      .ok (some [some (Node.new .Tag none none none none "html")]) [⟨.Eof, ""⟩] :=
  ⟨rfl, rfl⟩

/-- C8: for every casing `d` of the literal `"doctype"`, the tokens of
`<!d html>` parse to a single doctype node with payload `"html"`. -/
theorem c8_doctype_any_case (n : Nat) (d : String)
    (hd : to_lowercase d = "doctype") :
    parse (n+1+1+1) [⟨.TagBegin, "<"⟩, ⟨.Excl, "!"⟩, ⟨.Text, d⟩, ⟨.Whitespace, " "⟩,
        ⟨.Text, "html"⟩, ⟨.TagEnd, ">"⟩, ⟨.Eof, ""⟩] =
      .ok (some [some (Node.new .DoctypeTag none none none none "html")]) [⟨.Eof, ""⟩] := by
  simp [parse, parse_, parseLoop, parse_tag, parse_decl_tag, parse_doctype,
    expect_text, expect_kind, consume_kind, skip_ws, PResult.andThen, hd,
    Node.new, (by decide : to_lowercase "html" = "html")]

/-- Witness for C8 at `<!DOCTYPE html>`. -/
theorem c8_doctype_witness :
    parse 10 [⟨.TagBegin, "<"⟩, ⟨.Excl, "!"⟩, ⟨.Text, "DOCTYPE"⟩, ⟨.Whitespace, " "⟩,
        ⟨.Text, "html"⟩, ⟨.TagEnd, ">"⟩, ⟨.Eof, ""⟩] =
      .ok (some [some (Node.new .DoctypeTag none none none none "html")]) [⟨.Eof, ""⟩] :=
  c8_doctype_any_case 7 "DOCTYPE" (by decide)

/-- C9: inside a comment body, a lone hyphen token (not followed by a
second hyphen) re-appends `"-"`, a double hyphen not followed by `>`
re-appends `"--"`, a whitespace token becomes a single `" "`, and
`- - >` closes the comment with the accumulated text. -/
theorem c9_comment_hyphen_whitespace (n : Nat) (c : String) (t t' : Token)
    (ts : List Token) (hy1 hy2 ge : String)
    (h1 : ¬t.kind = .Hyphen) (h2 : ¬t'.kind = .TagEnd) :
    (commentLoop (n+1) c (⟨.Hyphen, hy1⟩ :: t :: ts) =
      commentLoop n (c ++ "-") (t :: ts)) ∧
    (commentLoop (n+1) c (⟨.Hyphen, hy1⟩ :: ⟨.Hyphen, hy2⟩ :: t' :: ts) =
      commentLoop n (c ++ "--") (t' :: ts)) ∧
    (commentLoop (n+1) c (⟨.Whitespace, hy1⟩ :: ts) =
      commentLoop n (c ++ " ") ts) ∧
    (commentLoop (n+1) c (⟨.Hyphen, hy1⟩ :: ⟨.Hyphen, hy2⟩ :: ⟨.TagEnd, ge⟩ :: ts) =
      .ok (some (Node.new .CommentTag none none none none c)) ts) := by
  refine ⟨?_, ?_, ?_, ?_⟩
  · simp [commentLoop, h1]
  · simp [commentLoop, h2]
  · simp [commentLoop]
  · simp [commentLoop, Node.new]

/-- Witness for C9 with concrete comment-body tokens. -/
theorem c9_comment_witness :
    (commentLoop (5+1) "x" [⟨.Hyphen, "-"⟩, ⟨.Text, "y"⟩, ⟨.Eof, ""⟩] =
      commentLoop 5 ("x" ++ "-") [⟨.Text, "y"⟩, ⟨.Eof, ""⟩]) ∧
    (commentLoop (5+1) "x" [⟨.Hyphen, "-"⟩, ⟨.Hyphen, "-"⟩, ⟨.Text, "y"⟩, ⟨.Eof, ""⟩] =
      commentLoop 5 ("x" ++ "--") [⟨.Text, "y"⟩, ⟨.Eof, ""⟩]) ∧
    (commentLoop (5+1) "x" [⟨.Whitespace, " "⟩, ⟨.Eof, ""⟩] =
      commentLoop 5 ("x" ++ " ") [⟨.Eof, ""⟩]) ∧
    (commentLoop (5+1) "x" [⟨.Hyphen, "-"⟩, ⟨.Hyphen, "-"⟩, ⟨.TagEnd, ">"⟩, ⟨.Eof, ""⟩] =
      .ok (some (Node.new .CommentTag none none none none "x")) [⟨.Eof, ""⟩]) :=
  c9_comment_hyphen_whitespace 5 "x" ⟨.Text, "y"⟩ ⟨.Text, "y"⟩ [⟨.Eof, ""⟩]
    "-" "-" ">" (by decide) (by decide)

/-- Helper for C10: every entry the attribute loop ever returns is a
well-formed `Parameter` entry, by induction on the loop. -/
theorem paramsLoop_entries :
    ∀ (n : Nat) (acc : List (Option Node)) (ts : List Token)
      (cs : List (Option Node)) (rest : List Token),
      paramsLoop n acc ts = .ok cs rest → (∀ x ∈ acc, isParamEntry x) →
      ∀ x ∈ cs, isParamEntry x := by
  intro n
  induction n with
  | zero => intro acc ts cs rest h _; simp [paramsLoop] at h
  | succ m ih =>
    intro acc ts cs rest h hacc
    rcases ts with _ | ⟨t, ts'⟩
    · simp [paramsLoop] at h
    · simp only [paramsLoop] at h
      split at h
      · injection h with h1 h2; subst h1; exact hacc
      · split at h
        · exact absurd h (by simp)
        · rename_i ts1 hsk1
          split at h
          · exact absurd h (by simp)
          · rename_i u us
            split at h
            · injection h with h1 h2; subst h1; exact hacc
            · split at h
              · exact absurd h (by simp)
              · rename_i ts2 hsk2
                split at h
                · exact absurd h (by simp)
                · rename_i v vs
                  split at h
                  · rcases hE : expect_kind .Assign vs with ⟨w, ws2⟩ | e | _ | _ <;>
                      rw [hE] at h <;> simp only [PResult.andThen] at h
                    · rcases hS : expect_kind .String ws2 with ⟨value, ts5⟩ | e | _ | _ <;>
                        rw [hS] at h <;> simp only [PResult.andThen] at h
                      · split at h
                        · exact absurd h (by simp)
                        · rename_i ts6 hsk3
                          refine ih _ _ _ _ h ?_
                          intro x hx
                          rcases List.mem_append.mp hx with hx | hx
                          · exact hacc x hx
                          · simp only [List.mem_singleton] at hx
                            subst hx
                            exact ⟨_, _, rfl⟩
                      · exact absurd h (by simp)
                      · exact absurd h (by simp)
                      · exact absurd h (by simp)
                    · exact absurd h (by simp)
                    · exact absurd h (by simp)
                    · exact absurd h (by simp)
                  · exact absurd h (by simp)

/-- C10: whenever attribute parsing succeeds, the result is either an
absent list (`none` — the zero-attribute case) or a `Parameters` node
whose child list is non-empty and consists only of `Parameter` entries;
a present-but-empty `Parameters` node is impossible. -/
theorem c10_parameters_nonempty (n : Nat) (ts rest : List Token) (r : Option Node)
    (h : parse_tag_parameters n ts = .ok r rest) :
    r = none ∨ ∃ cs, r = some (Node.new .Parameters none none none (some cs) "") ∧
      cs ≠ [] ∧ ∀ x ∈ cs, isParamEntry x := by
  unfold parse_tag_parameters at h
  rcases hL : paramsLoop n [] ts with ⟨cs0, rest0⟩ | e | _ | _ <;> rw [hL] at h <;>
    simp only at h
  · by_cases hc : cs0.length = 0
    · rw [if_pos hc] at h
      injection h with h1 h2
      exact Or.inl h1.symm
    · rw [if_neg hc] at h
      injection h with h1 h2
      refine Or.inr ⟨cs0, h1.symm, ?_, paramsLoop_entries n [] ts cs0 rest0 hL (by simp)⟩
      intro hnil
      exact hc (by simp [hnil])
  · exact absurd h (by simp)
  · exact absurd h (by simp)
  · exact absurd h (by simp)

/-- Witness for C10 at the concrete attribute list `a="v"` before `>`. -/
theorem c10_parameters_witness :
    (some (Node.new .Parameters none none none
        (some [some (Node.new .Parameter
          (some (Node.new .Identifier none none none none "a"))
          (some (Node.new .String none none none none "v")) none none "")]) "") :
      Option Node) = none ∨
    ∃ cs, (some (Node.new .Parameters none none none
        (some [some (Node.new .Parameter
          (some (Node.new .Identifier none none none none "a"))
          (some (Node.new .String none none none none "v")) none none "")]) "") :
      Option Node) = some (Node.new .Parameters none none none (some cs) "") ∧
      cs ≠ [] ∧ ∀ x ∈ cs, isParamEntry x :=
  c10_parameters_nonempty 10
    [⟨.Text, "a"⟩, ⟨.Assign, "="⟩, ⟨.String, "v"⟩, ⟨.TagEnd, ">"⟩, ⟨.Eof, ""⟩]
    [⟨.TagEnd, ">"⟩, ⟨.Eof, ""⟩] _ (by rfl)

end Parser

namespace Tokenizer

/-- On all-ASCII input the byte count equals the character count, so the
byte-based `is_eof` agrees with character indexing. -/
theorem byteLen_ascii (cs : List Char) (hA : ∀ c ∈ cs, c.utf8Size = 1) :
    byteLen cs = cs.length := by
  induction cs with
  | nil => rfl
  | cons c cs ih =>
    have h1 : c.utf8Size = 1 := hA c (by simp)
    have h2 : byteLen cs = cs.length := ih fun x hx => hA x (by simp [hx])
    simp [byteLen, List.sum_cons] at h2 ⊢
    omega

theorem string_mk_data (s : String) : (⟨s.data⟩ : String) = s := rfl

theorem data_push (s : String) (c : Char) : (s.push c).data = s.data ++ [c] := rfl

/-- C5: the tokenizer's reads past end of input are unchecked.  On the
input `"©"` — two UTF-8 bytes but one character — `is_eof` (which
compares the character index against the *byte* length) still reports
more input after the first character is consumed, so the next
`current_char` read runs past the end of the character sequence and the
`unwrap` panics: tokenization crashes instead of returning end-of-input. -/
theorem c5_unchecked_read_panics :
    tokenize 5 ['©'] = .panicked ∧
    is_eof ['©'] ⟨1, 1, 1⟩ = false ∧
    current_char ['©'] ⟨1, 1, 1⟩ = none :=
  ⟨rfl, by decide, by decide⟩

/-- Closed form of the `consume_text` scanning loop on ASCII input: it
appends exactly the maximal alphanumeric/underscore run starting at the
current position and advances the position by its length. -/
theorem consume_textAux_run (target : List Char)
    (hA : ∀ c ∈ target, c.utf8Size = 1) :
    ∀ (p : Position) (s : String),
      consume_textAux target p s =
        some (⟨s.data ++ (target.drop p.at_whole).takeWhile is_alphanum_⟩,
          move_horizon p ((target.drop p.at_whole).takeWhile is_alphanum_).length) := by
  have hbl : byteLen target = target.length := byteLen_ascii target hA
  suffices H : ∀ (k : Nat) (p : Position) (s : String),
      target.length - p.at_whole ≤ k →
      consume_textAux target p s =
        some (⟨s.data ++ (target.drop p.at_whole).takeWhile is_alphanum_⟩,
          move_horizon p ((target.drop p.at_whole).takeWhile is_alphanum_).length) by
    intro p s
    exact H target.length p s (by omega)
  intro k
  induction k with
  | zero =>
    intro p s hk
    have hge : target.length ≤ p.at_whole := by omega
    unfold consume_textAux
    rw [dif_pos (by omega)]
    rw [List.drop_eq_nil_of_le hge]
    simp [move_horizon]
  | succ k ih =>
    intro p s hk
    by_cases hge : target.length ≤ p.at_whole
    · unfold consume_textAux
      rw [dif_pos (by omega)]
      rw [List.drop_eq_nil_of_le hge]
      simp [move_horizon]
    · have hlt : p.at_whole < target.length := by omega
      have hget : target.get? p.at_whole = some target[p.at_whole] := by
        rw [List.get?_eq_getElem?, List.getElem?_eq_getElem hlt]
      unfold consume_textAux
      rw [dif_neg (by omega)]
      rw [hget]
      simp only []
      rw [List.drop_eq_getElem_cons hlt]
      by_cases hc : is_alphanum_ target[p.at_whole]
      · rw [if_pos hc, List.takeWhile_cons_of_pos hc]
        rw [ih (move_horizon p 1) (s.push target[p.at_whole])
          (by simp [move_horizon]; omega)]
        simp only [move_horizon, data_push, List.append_assoc,
          List.singleton_append, List.length_cons]
        simp only [Option.some.injEq, Prod.mk.injEq, Position.mk.injEq]
        refine ⟨trivial, trivial, by omega, by omega⟩
      · rw [if_neg hc, List.takeWhile_cons_of_neg hc]
        simp [move_horizon]

/-- Closed form of the `consume_numeric` scanning loop on ASCII input:
it appends the maximal run of digits and dots, records whether a dot was
seen, and advances by the run's length. -/
theorem consume_numericAux_run (target : List Char)
    (hA : ∀ c ∈ target, c.utf8Size = 1) :
    ∀ (p : Position) (s : String) (d : Bool),
      consume_numericAux target p s d =
        some (⟨s.data ++ (target.drop p.at_whole).takeWhile
            (fun x => is_number x || x = '.')⟩,
          (d || ((target.drop p.at_whole).takeWhile
            (fun x => is_number x || x = '.')).contains '.'),
          move_horizon p ((target.drop p.at_whole).takeWhile
            (fun x => is_number x || x = '.')).length) := by
  have hbl : byteLen target = target.length := byteLen_ascii target hA
  suffices H : ∀ (k : Nat) (p : Position) (s : String) (d : Bool),
      target.length - p.at_whole ≤ k →
      consume_numericAux target p s d =
        some (⟨s.data ++ (target.drop p.at_whole).takeWhile
            (fun x => is_number x || x = '.')⟩,
          (d || ((target.drop p.at_whole).takeWhile
            (fun x => is_number x || x = '.')).contains '.'),
          move_horizon p ((target.drop p.at_whole).takeWhile
            (fun x => is_number x || x = '.')).length) by
    intro p s d
    exact H target.length p s d (by omega)
  intro k
  induction k with
  | zero =>
    intro p s d hk
    have hge : target.length ≤ p.at_whole := by omega
    unfold consume_numericAux
    rw [dif_pos (by omega)]
    rw [List.drop_eq_nil_of_le hge]
    simp [move_horizon]
  | succ k ih =>
    intro p s d hk
    by_cases hge : target.length ≤ p.at_whole
    · unfold consume_numericAux
      rw [dif_pos (by omega)]
      rw [List.drop_eq_nil_of_le hge]
      simp [move_horizon]
    · have hlt : p.at_whole < target.length := by omega
      have hget : target.get? p.at_whole = some target[p.at_whole] := by
        rw [List.get?_eq_getElem?, List.getElem?_eq_getElem hlt]
      unfold consume_numericAux
      rw [dif_neg (by omega)]
      rw [hget]
      simp only []
      rw [List.drop_eq_getElem_cons hlt]
      by_cases hn : is_number target[p.at_whole]
      · rw [if_pos hn]
        rw [List.takeWhile_cons_of_pos (by simp [hn])]
        rw [ih (move_horizon p 1) (s.push target[p.at_whole]) d
          (by simp [move_horizon]; omega)]
        have hdot : ('.' == target[p.at_whole]) = false := by
          have hn' := hn
          simp only [is_number, decide_eq_true_eq] at hn'
          rcases hn' with h | h | h | h | h | h | h | h | h | h <;> rw [h] <;> rfl
        simp only [move_horizon, data_push, List.append_assoc,
          List.singleton_append, List.length_cons, List.contains_cons, hdot,
          Bool.false_or, Option.some.injEq, Prod.mk.injEq, Position.mk.injEq]
        refine ⟨trivial, trivial, trivial, by omega, by omega⟩
      · by_cases hd : target[p.at_whole] = '.'
        · rw [if_neg hn, if_pos hd]
          rw [List.takeWhile_cons_of_pos (by simp [hd])]
          rw [ih (move_horizon p 1) (s.push target[p.at_whole]) true
            (by simp [move_horizon]; omega)]
          simp only [move_horizon, data_push, List.append_assoc,
            List.singleton_append, List.length_cons, List.contains_cons, hd,
            Option.some.injEq, Prod.mk.injEq, Position.mk.injEq]
          refine ⟨trivial, by simp, trivial, by omega, by omega⟩
        · rw [if_neg hn, if_neg hd]
          rw [List.takeWhile_cons_of_neg (by simp [hn, hd])]
          simp [move_horizon]

/-- `consume_text` at an alphanumeric/underscore character: the maximal
run, as one string. -/
theorem consume_text_alnum (target : List Char) (p : Position) (c : Char)
    (hA : ∀ ch ∈ target, ch.utf8Size = 1)
    (hget : target.get? p.at_whole = some c) (hc : is_alphanum_ c = true) :
    consume_text target p =
      some (⟨(target.drop p.at_whole).takeWhile is_alphanum_⟩,
        move_horizon p ((target.drop p.at_whole).takeWhile is_alphanum_).length) := by
  unfold consume_text
  rw [hget]
  simp only [hc, Bool.not_true, reduceIte]
  rw [consume_textAux_run target hA p ""]
  simp

/-- `consume_text` at any other character: that character alone. -/
theorem consume_text_other (target : List Char) (p : Position) (c : Char)
    (hget : target.get? p.at_whole = some c) (hc : is_alphanum_ c = false) :
    consume_text target p = some (String.singleton c, move_horizon p 1) := by
  unfold consume_text
  rw [hget]
  simp [hc]

/-- `consume_numeric` on ASCII input: the maximal digit/dot run, panicking
when the run holds two or more dots (the `parse::<f64>().unwrap()`). -/
theorem consume_numeric_run (target : List Char) (p : Position)
    (hA : ∀ ch ∈ target, ch.utf8Size = 1) :
    consume_numeric target p =
      (if 2 ≤ ((target.drop p.at_whole).takeWhile
          (fun x => is_number x || x = '.')).count '.' then none
       else some (⟨(target.drop p.at_whole).takeWhile
          (fun x => is_number x || x = '.')⟩,
        ((target.drop p.at_whole).takeWhile
          (fun x => is_number x || x = '.')).contains '.',
        move_horizon p ((target.drop p.at_whole).takeWhile
          (fun x => is_number x || x = '.')).length)) := by
  unfold consume_numeric
  rw [consume_numericAux_run target hA p "" false]
  simp

/-- Counterexample for C6: on `"123abc"` the tokenizer does NOT emit one
text token — the digit-initial run is split into an `Integer` token
`"123"` (the `is_number` branch runs before `consume_text`) followed by a
`Text` token `"abc"`, which differs from the claimed single text token. -/
theorem c6_digit_run_counterexample :
    (tokenize 3 "123abc".data).kinds =
      some [.Integer "123", .Text "abc", .Eof] ∧
    ([TokenKind.Integer "123", .Text "abc", .Eof] ≠
      [TokenKind.Text "123abc", .Eof]) := by
  constructor
  · have hA : ∀ c ∈ "123abc".data, c.utf8Size = 1 := by decide
    have hg3 : "123abc".data.get? 3 = some 'a' := by decide
    have hN : consume_numeric "123abc".data ⟨1, 0, 0⟩ =
        some ("123", false, ⟨1, 3, 3⟩) := by
      rw [consume_numeric_run _ ⟨1, 0, 0⟩ hA]; decide
    have hT : consume_text "123abc".data ⟨1, 3, 3⟩ = some ("abc", ⟨1, 6, 6⟩) := by
      rw [consume_text_alnum _ ⟨1, 3, 3⟩ 'a' hA hg3 (by decide)]; decide
    have hB : byteLen "123abc".data = 6 := by decide
    show (tokenizeLoop (0+1+1+1) "123abc".data ⟨1, 0, 0⟩ []).kinds = _
    simp [tokenizeLoop, hN, hT, is_ws, is_reserved_symbol, is_number, hB,
      TRes.kinds, Token.kind]
  · decide

/-- C6 as amended: at an input position (on ASCII input) whose character
is not whitespace, not a reserved symbol and not a quote, one step of the
scanning loop emits: for a digit, the maximal digit/dot run as one
numeric token (`Decimal` if the run holds a dot, else `Integer`; at most
one dot, else the numeric parse panics); for a non-digit
alphanumeric/underscore character, the maximal alphanumeric/underscore
run as one text token; for any other character, that character alone as a
one-character text token. -/
theorem c6_token_classification (n : Nat) (target : List Char) (p : Position)
    (acc : List Token) (c : Char)
    (hA : ∀ ch ∈ target, ch.utf8Size = 1)
    (hget : target.get? p.at_whole = some c)
    (hws : is_ws c = false) (hsym : is_reserved_symbol c = false)
    (hq1 : ¬c = '\'') (hq2 : ¬c = '"') :
    (is_number c = true →
      ((target.drop p.at_whole).takeWhile
          (fun x => is_number x || x = '.')).count '.' ≤ 1 →
      tokenizeLoop (n+1) target p acc =
        tokenizeLoop n target
          (move_horizon p ((target.drop p.at_whole).takeWhile
            (fun x => is_number x || x = '.')).length)
          (acc ++ [⟨(if ((target.drop p.at_whole).takeWhile
              (fun x => is_number x || x = '.')).contains '.'
            then .Decimal ⟨(target.drop p.at_whole).takeWhile
              (fun x => is_number x || x = '.')⟩
            else .Integer ⟨(target.drop p.at_whole).takeWhile
              (fun x => is_number x || x = '.')⟩),
            move_horizon p ((target.drop p.at_whole).takeWhile
              (fun x => is_number x || x = '.')).length⟩])) ∧
    (is_number c = false → is_alphanum_ c = true →
      tokenizeLoop (n+1) target p acc =
        tokenizeLoop n target
          (move_horizon p ((target.drop p.at_whole).takeWhile is_alphanum_).length)
          (acc ++ [⟨.Text ⟨(target.drop p.at_whole).takeWhile is_alphanum_⟩,
            move_horizon p ((target.drop p.at_whole).takeWhile is_alphanum_).length⟩])) ∧
    (is_alphanum_ c = false →
      tokenizeLoop (n+1) target p acc =
        tokenizeLoop n target (move_horizon p 1)
          (acc ++ [⟨.Text (String.singleton c), move_horizon p 1⟩])) := by
  have hlt : p.at_whole < target.length := by
    by_contra hge
    rw [List.get?_eq_getElem?, List.getElem?_eq_none (by omega)] at hget
    exact absurd hget (by simp)
  have hbl : byteLen target = target.length := byteLen_ascii target hA
  refine ⟨?_, ?_, ?_⟩
  · intro hnum hdots
    show tokenizeLoop (n+1) target p acc = _
    rw [tokenizeLoop]
    rw [if_neg (by omega), hget]
    simp only [hws, hsym, if_neg hq1, if_neg hq2, hnum, Bool.false_eq_true,
      reduceIte]
    rw [consume_numeric_run target p hA]
    rw [if_neg (by omega)]
    by_cases hcon : '.' ∈ (target.drop p.at_whole).takeWhile
        (fun x => is_number x || x = '.')
    · simp [hcon]
    · simp [hcon]
  · intro hnum halnum
    show tokenizeLoop (n+1) target p acc = _
    rw [tokenizeLoop]
    rw [if_neg (by omega), hget]
    simp only [hws, hsym, if_neg hq1, if_neg hq2, hnum, Bool.false_eq_true,
      reduceIte]
    rw [consume_text_alnum target p c hA hget halnum]
  · intro halnum
    have hnum : is_number c = false := by
      by_contra h
      simp only [Bool.not_eq_false] at h
      have : is_alphanum_ c = true := by
        simp only [is_number, decide_eq_true_eq] at h
        rcases h with h | h | h | h | h | h | h | h | h | h <;> rw [h] <;> rfl
      rw [this] at halnum
      exact absurd halnum (by simp)
    show tokenizeLoop (n+1) target p acc = _
    rw [tokenizeLoop]
    rw [if_neg (by omega), hget]
    simp only [hws, hsym, if_neg hq1, if_neg hq2, hnum, Bool.false_eq_true,
      reduceIte]
    rw [consume_text_other target p c hget halnum]

/-- Witness for the amended C6: one scanning step on `"ab,"` emits the
maximal run `"ab"` as a single text token. -/
theorem c6_token_classification_witness :
    tokenizeLoop (5+1) "ab,".data ⟨1, 0, 0⟩ [] =
      tokenizeLoop 5 "ab,".data ⟨1, 2, 2⟩ [⟨.Text "ab", ⟨1, 2, 2⟩⟩] := by
  have h := (c6_token_classification 5 "ab,".data ⟨1, 0, 0⟩ [] 'a' (by decide)
    (by decide) (by decide) (by decide) (by decide) (by decide)).2.1
    (by decide) (by decide)
  rw [h]
  congr 1

end Tokenizer

end Html
